import Mathlib

/-!
Shallow embedding of the AS7331 UV sensor driver (src/src/as7331.rs).

The bus transport (esp_idf_hal I2cDriver) is modelled as an oracle that
answers each transaction given the trace of transactions issued so far.
Every driver operation is a function from a bus oracle and the trace so
far to a result (success value or transport error, exactly as returned
by the oracle) together with the extended trace. Bytes are Nat values
below 256; u8 truncation in the Rust source is rendered as an explicit
mod 256.
-/

namespace AS7331

/-- Transport error, mirroring EspError (wraps an esp_err_t code). -/
structure EspError where
  code : Int
deriving DecidableEq

/-- One bus transaction: a combined write-register-address-then-read of
len bytes, or a write of (register address, value). -/
inductive Tx where
  | read (addr : Nat) (len : Nat)
  | write (addr : Nat) (val : Nat)
deriving DecidableEq

/-- The bus oracle: given the trace issued so far, answer a read
transaction with a byte buffer (a function from buffer index to byte)
or an error, and a write transaction with unit or an error. -/
structure Bus where
  respondRead : List Tx → Nat → Nat → Except EspError (Nat → Nat)
  respondWrite : List Tx → Nat → Nat → Except EspError Unit

/-- A driver computation: from bus oracle and trace so far to a result
and the extended trace. -/
def M (α : Type) : Type := Bus → List Tx → Except EspError α × List Tx

/-- Return a value, issuing no transaction. -/
def M.pure {α : Type} (a : α) : M α := fun _ t => (Except.ok a, t)

/-- Sequence two computations; an error in the first short-circuits,
mirroring the Rust question-mark operator. -/
def M.bind {α β : Type} (x : M α) (f : α → M β) : M β := fun b t =>
  match x b t with
  | (Except.ok a, t1) => f a b t1
  | (Except.error e, t1) => (Except.error e, t1)

-- Register addresses from the source.
def AS7331_I2CADDR_DEFAULT : Nat := 0x74
def AS7331_OSR : Nat := 0x00
def AS7331_AGEN : Nat := 0x02
def AS7331_CREG1 : Nat := 0x06
def AS7331_CREG3 : Nat := 0x08
def AS7331_BREAK : Nat := 0x09
def AS7331_STATUS : Nat := 0x00
def AS7331_TEMP : Nat := 0x01
def AS7331_MRES1 : Nat := 0x02
def AS7331_MRES2 : Nat := 0x03
def AS7331_MRES3 : Nat := 0x04

/-- fn i2c_write_read_cmd: write the register address, read len bytes.
The buffer holds u8 values, hence the mod 256 on each byte. -/
def i2c_write_read_cmd (addr len : Nat) : M (Nat → Nat) := fun b t =>
  match b.respondRead t addr len with
  | Except.ok f => (Except.ok (fun i => f i % 256), t ++ [Tx.read addr len])
  | Except.error e => (Except.error e, t ++ [Tx.read addr len])

/-- fn i2c_read_bytes: identical transaction shape to i2c_write_read_cmd
in the source (both call i2c.write_read). -/
def i2c_read_bytes (addr len : Nat) : M (Nat → Nat) := i2c_write_read_cmd addr len

/-- fn i2c_write_cmd: write the two bytes (register address, value). -/
def i2c_write_cmd (addr cmd : Nat) : M Unit := fun b t =>
  match b.respondWrite t addr cmd with
  | Except.ok _ => (Except.ok (), t ++ [Tx.write addr cmd])
  | Except.error e => (Except.error e, t ++ [Tx.write addr cmd])

/-- fn get_chip_id: read one byte at AGEN. -/
def get_chip_id : M Nat :=
  M.bind (i2c_write_read_cmd AS7331_AGEN 1) (fun data => M.pure (data 0))

/-- The byte written to CREG1: gain << 4 | time, u8 shift truncation
made explicit. -/
def creg1Byte (gain time : Nat) : Nat := (gain <<< 4) % 256 ||| time

/-- The byte written to CREG3: mmode << 6 | sb << 4 | cclk, u8 shift
truncation made explicit. -/
def creg3Byte (mmode sb cclk : Nat) : Nat :=
  (mmode <<< 6) % 256 ||| (sb <<< 4) % 256 ||| cclk

/-- fn init: three register writes, CREG1 then CREG3 then BREAK. -/
def init (mmode cclk sb break_time gain time : Nat) : M Unit :=
  M.bind (i2c_write_cmd AS7331_CREG1 (creg1Byte gain time)) (fun _ =>
  M.bind (i2c_write_cmd AS7331_CREG3 (creg3Byte mmode sb cclk)) (fun _ =>
  i2c_write_cmd AS7331_BREAK break_time))

/-- fn one_shot: read OSR (one byte), write back with bit 7 set. -/
def one_shot : M Unit :=
  M.bind (i2c_write_read_cmd AS7331_OSR 1) (fun data =>
  i2c_write_cmd AS7331_OSR (data 0 ||| 0x80))

/-- fn get_status: read two bytes at STATUS, decode the second into
eight flags, bit 0 first. -/
def get_status : M (List Nat) :=
  M.bind (i2c_read_bytes AS7331_STATUS 2) (fun data =>
  M.pure [
    (data 1 &&& 0x01) >>> 0,
    (data 1 &&& 0x02) >>> 1,
    (data 1 &&& 0x04) >>> 2,
    (data 1 &&& 0x08) >>> 3,
    (data 1 &&& 0x10) >>> 4,
    (data 1 &&& 0x20) >>> 5,
    (data 1 &&& 0x40) >>> 6,
    (data 1 &&& 0x80) >>> 7])

/-- fn read_temp_data: two bytes at TEMP, little-endian compose. -/
def read_temp_data : M Nat :=
  M.bind (i2c_read_bytes AS7331_TEMP 2) (fun data =>
  M.pure ((data 1 <<< 8) ||| data 0))

/-- fn read_uv_a_data: two bytes at MRES1, little-endian compose. -/
def read_uv_a_data : M Nat :=
  M.bind (i2c_read_bytes AS7331_MRES1 2) (fun data =>
  M.pure ((data 1 <<< 8) ||| data 0))

/-- fn read_uv_b_data: two bytes at MRES2, little-endian compose. -/
def read_uv_b_data : M Nat :=
  M.bind (i2c_read_bytes AS7331_MRES2 2) (fun data =>
  M.pure ((data 1 <<< 8) ||| data 0))

/-- fn read_uv_c_data: two bytes at MRES3, little-endian compose. -/
def read_uv_c_data : M Nat :=
  M.bind (i2c_read_bytes AS7331_MRES3 2) (fun data =>
  M.pure ((data 1 <<< 8) ||| data 0))

/-- fn read_all_data: eight bytes starting at TEMP, four little-endian
pairs. -/
def read_all_data : M (List Nat) :=
  M.bind (i2c_read_bytes AS7331_TEMP 8) (fun raw =>
  M.pure [
    (raw 1 <<< 8) ||| raw 0,
    (raw 3 <<< 8) ||| raw 2,
    (raw 5 <<< 8) ||| raw 4,
    (raw 7 <<< 8) ||| raw 6])

/-- fn power_up: single write of data[0] | 0x40 where data is the
zero-initialized local [0u8; 22]; no bus read is issued. -/
def power_up : M Unit := i2c_write_cmd AS7331_OSR (0 ||| 0x40)

/-- fn power_down: single write of data[0] & !0x40 (u8 complement of
0x40 is 0xBF) where data is the zero-initialized local [0u8; 22]. -/
def power_down : M Unit := i2c_write_cmd AS7331_OSR (0 &&& 0xBF)

/-- fn reset: single write of data[0] | 0x08 where data is the
zero-initialized local [0u8; 22]; no bus read is issued. -/
def reset : M Unit := i2c_write_cmd AS7331_OSR (0 ||| 0x08)

/-- fn set_configuration_mode: single write of data[0] | 0x02 where
data is the zero-initialized local [0u8; 22]; no bus read is issued. -/
def set_configuration_mode : M Unit := i2c_write_cmd AS7331_OSR (0 ||| 0x02)

/-- fn get_mode: read two bytes at OSR, decode the first into four
fields in ascending bit order: bits 0-2, bit 3, bit 6, bit 7. -/
def get_mode : M (List Nat) :=
  M.bind (i2c_read_bytes AS7331_OSR 2) (fun raw =>
  M.pure [
    raw 0 &&& 0x07,
    (raw 0 &&& 0x08) >>> 3,
    (raw 0 &&& 0x40) >>> 6,
    (raw 0 &&& 0x80) >>> 7])

/-- fn set_measurement_mode: single write of data[0] | 0x83 where data
is the zero-initialized local [0u8; 22]; the read-modify-write variant
is commented out in the source. -/
def set_measurement_mode : M Unit := i2c_write_cmd AS7331_OSR (0 ||| 0x83)

/-- A bus whose reads all succeed returning the constant byte v and
whose writes all succeed. -/
def constReadBus (v : Nat) : Bus where
  respondRead := fun _ _ _ => Except.ok (fun _ => v)
  respondWrite := fun _ _ _ => Except.ok ()

/-- A bus whose reads return the given byte list (buffer index i maps
to element i, default 0) and whose writes all succeed. -/
def listBus (bytes : List Nat) : Bus where
  respondRead := fun _ _ _ => Except.ok (fun i => bytes.getD i 0)
  respondWrite := fun _ _ _ => Except.ok ()

/-- A bus that fails every transaction with the given error. -/
def failBus (e : EspError) : Bus where
  respondRead := fun _ _ _ => Except.error e
  respondWrite := fun _ _ _ => Except.error e

/-- A bus whose reads serve the byte function f shifted by offset k
(buffer index j maps to f (k + j)) and whose writes succeed. -/
def shiftBus (f : Nat → Nat) (k : Nat) : Bus where
  respondRead := fun _ _ _ => Except.ok (fun j => f (k + j))
  respondWrite := fun _ _ _ => Except.ok ()

/-- A bus whose first write (empty prior trace) succeeds and every
later write fails with e; reads succeed returning zero bytes. -/
def failSecondWriteBus (e : EspError) : Bus where
  respondRead := fun _ _ _ => Except.ok (fun _ => 0)
  respondWrite := fun t _ _ => match t with
    | [] => Except.ok ()
    | _ :: _ => Except.error e

/-- Every transaction of the bus b succeeds. -/
def busTotal (b : Bus) : Prop :=
  (∀ t a l, ∃ f, b.respondRead t a l = Except.ok f) ∧
  (∀ t a v, b.respondWrite t a v = Except.ok ())

/-- The bus b acknowledges the transaction tx when issued after the
trace t. -/
def txOk (b : Bus) (t : List Tx) : Tx → Prop
  | Tx.read a l => ∃ f, b.respondRead t a l = Except.ok f
  | Tx.write a v => b.respondWrite t a v = Except.ok ()

/-- The bus b answers the transaction tx, issued after the trace t,
with the error e. -/
def txErr (b : Bus) (t : List Tx) : Tx → EspError → Prop
  | Tx.read a l, e => b.respondRead t a l = Except.error e
  | Tx.write a v, e => b.respondWrite t a v = Except.error e

/-- Every transaction of the list, issued in order after the trace t,
is acknowledged by the bus b. -/
def allOk (b : Bus) : List Tx → List Tx → Prop
  | _, [] => True
  | t, tx :: rest => txOk b t tx ∧ allOk b (t ++ [tx]) rest

/-- A computation fails exactly when one of the transactions it actually
issues fails: every run either succeeds with all issued transactions
acknowledged, or returns, unchanged, the error with which its final
(first failing) issued transaction was answered. -/
def faithful {α : Type} (m : M α) : Prop :=
  ∀ b t, ∃ l, (m b t).2 = t ++ l ∧
    (((∃ a, (m b t).1 = Except.ok a) ∧ allOk b t l) ∨
     (∃ e l0 tx, (m b t).1 = Except.error e ∧ l = l0 ++ [tx] ∧
        allOk b t l0 ∧ txErr b (t ++ l0) tx e))

theorem i2c_write_cmd_trace (b : Bus) (t : List Tx) (addr cmd : Nat) :
    (i2c_write_cmd addr cmd b t).2 = t ++ [Tx.write addr cmd] := by
  unfold i2c_write_cmd
  cases b.respondWrite t addr cmd <;> rfl

theorem one_shot_rmw (b : Bus) (t : List Tx) (f : Nat → Nat)
    (hr : b.respondRead t AS7331_OSR 1 = Except.ok f) :
    (one_shot b t).2
      = t ++ [Tx.read AS7331_OSR 1, Tx.write AS7331_OSR (f 0 % 256 ||| 0x80)] := by
  unfold one_shot M.bind i2c_write_read_cmd
  simp only [hr]
  rw [i2c_write_cmd_trace]
  simp

theorem or_testBit_ne (x k i : Nat) (hi : i ≠ k) :
    Nat.testBit (x ||| 2 ^ k) i = Nat.testBit x i := by
  rw [Nat.testBit_or, Nat.testBit_two_pow_of_ne (Ne.symm hi)]
  simp

theorem or_testBit_self (x k : Nat) : Nat.testBit (x ||| 2 ^ k) k = true := by
  rw [Nat.testBit_or, Nat.testBit_two_pow_self]
  simp

/-- C1: the claim states that all five state setters do a read-modify-write
preserving the other bits. The code refutes it: power_up issues no read at
all and writes the constant 0x40, which differs from the value 0x41 that a
read-modify-write over a register reading 0x01 would produce. -/
theorem power_up_no_read_counterexample :
    (power_up (constReadBus 1) []).2 = [Tx.write AS7331_OSR 0x40] ∧
    [Tx.write AS7331_OSR 0x40] ≠ [Tx.read AS7331_OSR 1, Tx.write AS7331_OSR 0x41] := by
  constructor
  · rfl
  · decide

/-- C1 amended: only one_shot is a read-modify-write (one read of OSR, then
one write of the read byte with bit 7 set and every other bit unchanged);
power_up, power_down, reset and set_configuration_mode each issue a single
direct write, with no read, of the constant bytes 0x40, 0x00, 0x08, 0x02
computed from an always-zero base. -/
theorem state_setters_amended (b : Bus) (t : List Tx) (f : Nat → Nat)
    (hr : b.respondRead t AS7331_OSR 1 = Except.ok f) :
    (one_shot b t).2
      = t ++ [Tx.read AS7331_OSR 1, Tx.write AS7331_OSR (f 0 % 256 ||| 0x80)] ∧
    (∀ i, i ≠ 7 → Nat.testBit (f 0 % 256 ||| 0x80) i = Nat.testBit (f 0 % 256) i) ∧
    Nat.testBit (f 0 % 256 ||| 0x80) 7 = true ∧
    (power_up b t).2 = t ++ [Tx.write AS7331_OSR 0x40] ∧
    (power_down b t).2 = t ++ [Tx.write AS7331_OSR 0x00] ∧
    (reset b t).2 = t ++ [Tx.write AS7331_OSR 0x08] ∧
    (set_configuration_mode b t).2 = t ++ [Tx.write AS7331_OSR 0x02] := by
  refine ⟨one_shot_rmw b t f hr, ?_, ?_, ?_, ?_, ?_, ?_⟩
  · intro i hi
    have h80 : (0x80 : Nat) = 2 ^ 7 := by norm_num
    rw [h80, or_testBit_ne _ _ _ hi]
  · have h80 : (0x80 : Nat) = 2 ^ 7 := by norm_num
    rw [h80, or_testBit_self]
  · exact i2c_write_cmd_trace b t AS7331_OSR (0 ||| 0x40)
  · exact i2c_write_cmd_trace b t AS7331_OSR (0 &&& 0xBF)
  · exact i2c_write_cmd_trace b t AS7331_OSR (0 ||| 0x08)
  · exact i2c_write_cmd_trace b t AS7331_OSR (0 ||| 0x02)

theorem state_setters_amended_witness :
    (one_shot (constReadBus 5) []).2
      = [] ++ [Tx.read AS7331_OSR 1, Tx.write AS7331_OSR (5 % 256 ||| 0x80)] :=
  (state_setters_amended (constReadBus 5) [] (fun _ => 5) rfl).1

/-- C2: set_measurement_mode issues, for every bus state, a single direct
write of the constant byte 0x83 to the operating-state register, with no
preceding read. -/
theorem set_measurement_mode_writes_0x83 (b : Bus) (t : List Tx) :
    (set_measurement_mode b t).2 = t ++ [Tx.write AS7331_OSR 0x83] :=
  i2c_write_cmd_trace b t AS7331_OSR (0 ||| 0x83)

theorem bind_read_pure_ok {α : Type} (b : Bus) (t : List Tx) (addr len : Nat)
    (f : Nat → Nat) (g : (Nat → Nat) → α)
    (hr : b.respondRead t addr len = Except.ok f) :
    M.bind (i2c_write_read_cmd addr len) (fun d => M.pure (g d)) b t
      = (Except.ok (g (fun i => f i % 256)), t ++ [Tx.read addr len]) := by
  unfold M.bind i2c_write_read_cmd
  simp only [hr]
  rfl

theorem and_two_pow_shiftRight (x k : Nat) :
    (x &&& 2 ^ k) >>> k = (Nat.testBit x k).toNat := by
  rw [Nat.and_two_pow, Nat.shiftRight_eq_div_pow]
  exact Nat.mul_div_cancel _ (Nat.two_pow_pos k)

theorem mask_shift_toNat (x k m : Nat) (hm : m = 2 ^ k) :
    (x &&& m) >>> k = (Nat.testBit x k).toNat := by
  subst hm
  exact and_two_pow_shiftRight x k

/-- C3: the claim states get_mode returns, after the 3-bit state field, the
start/stop flag (bit 7), then power (bit 6), then reset (bit 3). The code
refutes it: on a first OSR byte of 0x80 (only bit 7 set) get_mode returns
[0, 0, 0, 1], while the claimed order would give [0, 1, 0, 0]. -/
theorem get_mode_order_counterexample :
    (get_mode (listBus [0x80, 0]) []).1 = Except.ok [0, 0, 0, 1] ∧
    ([0, 0, 0, 1] : List Nat) ≠ [0, 1, 0, 0] := by
  constructor
  · rfl
  · decide

/-- C3 amended: get_mode decodes only the first of the two bytes read from
the operating-state register, and returns, in order: the low 3 bits of that
byte (device operational state), then bit 3 (the software-reset flag), then
bit 6 (the power flag), then bit 7 (the start/stop-of-measurement flag). -/
theorem get_mode_decodes (b : Bus) (t : List Tx) (f : Nat → Nat)
    (hr : b.respondRead t AS7331_OSR 2 = Except.ok f) :
    (get_mode b t).1 = Except.ok
      [f 0 % 256 % 8,
       (Nat.testBit (f 0 % 256) 3).toNat,
       (Nat.testBit (f 0 % 256) 6).toNat,
       (Nat.testBit (f 0 % 256) 7).toNat] ∧
    (get_mode b t).2 = t ++ [Tx.read AS7331_OSR 2] := by
  have h : get_mode b t
      = (Except.ok [f 0 % 256 &&& 0x07, (f 0 % 256 &&& 0x08) >>> 3,
          (f 0 % 256 &&& 0x40) >>> 6, (f 0 % 256 &&& 0x80) >>> 7],
         t ++ [Tx.read AS7331_OSR 2]) :=
    bind_read_pure_ok b t AS7331_OSR 2 f _ hr
  rw [h]
  refine ⟨?_, rfl⟩
  have h0 : f 0 % 256 &&& 0x07 = f 0 % 256 % 8 := by
    have h7 : (0x07 : Nat) = 2 ^ 3 - 1 := by norm_num
    have h8 : (8 : Nat) = 2 ^ 3 := by norm_num
    rw [h7, h8]
    exact Nat.and_pow_two_sub_one_eq_mod (f 0 % 256) 3
  rw [h0, mask_shift_toNat _ 3 _ (by norm_num), mask_shift_toNat _ 6 _ (by norm_num),
    mask_shift_toNat _ 7 _ (by norm_num)]

theorem get_mode_decodes_witness :
    (get_mode (listBus [0xCB, 0]) []).1 = Except.ok [3, 1, 1, 1] := by
  have h := (get_mode_decodes (listBus [0xCB, 0]) []
    (fun i => List.getD [0xCB, 0] i 0) rfl).1
  rw [h]
  simp only [Except.ok.injEq]
  decide

/-- C5: get_status reads a 2-byte burst at the status address, ignores the
first byte, and decodes the second into eight flags with bit N at index N;
on second byte 0b10110001 it returns [1, 0, 0, 0, 1, 1, 0, 1]. -/
theorem get_status_decodes (b : Bus) (t : List Tx) (f : Nat → Nat)
    (hr : b.respondRead t AS7331_STATUS 2 = Except.ok f) :
    (get_status b t).1 = Except.ok
      [(Nat.testBit (f 1 % 256) 0).toNat,
       (Nat.testBit (f 1 % 256) 1).toNat,
       (Nat.testBit (f 1 % 256) 2).toNat,
       (Nat.testBit (f 1 % 256) 3).toNat,
       (Nat.testBit (f 1 % 256) 4).toNat,
       (Nat.testBit (f 1 % 256) 5).toNat,
       (Nat.testBit (f 1 % 256) 6).toNat,
       (Nat.testBit (f 1 % 256) 7).toNat] ∧
    (get_status b t).2 = t ++ [Tx.read AS7331_STATUS 2] ∧
    (get_status (listBus [0, 0xB1]) []).1 = Except.ok [1, 0, 0, 0, 1, 1, 0, 1] := by
  have h : get_status b t
      = (Except.ok [(f 1 % 256 &&& 0x01) >>> 0, (f 1 % 256 &&& 0x02) >>> 1,
          (f 1 % 256 &&& 0x04) >>> 2, (f 1 % 256 &&& 0x08) >>> 3,
          (f 1 % 256 &&& 0x10) >>> 4, (f 1 % 256 &&& 0x20) >>> 5,
          (f 1 % 256 &&& 0x40) >>> 6, (f 1 % 256 &&& 0x80) >>> 7],
         t ++ [Tx.read AS7331_STATUS 2]) :=
    bind_read_pure_ok b t AS7331_STATUS 2 f _ hr
  rw [h]
  refine ⟨?_, rfl, rfl⟩
  rw [mask_shift_toNat _ 0 _ (by norm_num), mask_shift_toNat _ 1 _ (by norm_num),
    mask_shift_toNat _ 2 _ (by norm_num), mask_shift_toNat _ 3 _ (by norm_num),
    mask_shift_toNat _ 4 _ (by norm_num), mask_shift_toNat _ 5 _ (by norm_num),
    mask_shift_toNat _ 6 _ (by norm_num), mask_shift_toNat _ 7 _ (by norm_num)]

theorem get_status_decodes_witness :
    (get_status (listBus [0, 0xB1]) []).1 = Except.ok [1, 0, 0, 0, 1, 1, 0, 1] :=
  (get_status_decodes (listBus [0, 0xB1]) []
    (fun i => List.getD [0, 0xB1] i 0) rfl).2.2

theorem shl8_or_eq (hi lo : Nat) (h : lo < 256) :
    (hi <<< 8) ||| lo = 256 * hi + lo := by
  have h2 : lo < 2 ^ 8 := h
  calc (hi <<< 8) ||| lo = 2 ^ 8 * hi ||| lo := by rw [Nat.shiftLeft_eq, Nat.mul_comm]
    _ = 2 ^ 8 * hi + lo := (Nat.mul_add_lt_is_or h2 hi).symm
    _ = 256 * hi + lo := by norm_num

/-- C6: read_all_data reads an 8-byte burst at the temperature address and
decodes four consecutive little-endian 16-bit values, in order temperature,
UV-A, UV-B, UV-C; on bytes [0x34, 0x12, 0x78, 0x56, 0xBC, 0x9A, 0xF0, 0xDE]
it returns [0x1234, 0x5678, 0x9ABC, 0xDEF0]. -/
theorem read_all_data_le (b : Bus) (t : List Tx) (f : Nat → Nat)
    (hr : b.respondRead t AS7331_TEMP 8 = Except.ok f) :
    (read_all_data b t).1 = Except.ok
      [256 * (f 1 % 256) + f 0 % 256,
       256 * (f 3 % 256) + f 2 % 256,
       256 * (f 5 % 256) + f 4 % 256,
       256 * (f 7 % 256) + f 6 % 256] ∧
    (read_all_data b t).2 = t ++ [Tx.read AS7331_TEMP 8] ∧
    (read_all_data (listBus [0x34, 0x12, 0x78, 0x56, 0xBC, 0x9A, 0xF0, 0xDE]) []).1
      = Except.ok [0x1234, 0x5678, 0x9ABC, 0xDEF0] := by
  have h : read_all_data b t
      = (Except.ok [((f 1 % 256) <<< 8) ||| f 0 % 256, ((f 3 % 256) <<< 8) ||| f 2 % 256,
          ((f 5 % 256) <<< 8) ||| f 4 % 256, ((f 7 % 256) <<< 8) ||| f 6 % 256],
         t ++ [Tx.read AS7331_TEMP 8]) :=
    bind_read_pure_ok b t AS7331_TEMP 8 f _ hr
  rw [h]
  refine ⟨?_, rfl, rfl⟩
  rw [shl8_or_eq _ _ (Nat.mod_lt _ (by norm_num)),
    shl8_or_eq _ _ (Nat.mod_lt _ (by norm_num)),
    shl8_or_eq _ _ (Nat.mod_lt _ (by norm_num)),
    shl8_or_eq _ _ (Nat.mod_lt _ (by norm_num))]

theorem read_all_data_le_witness :
    (read_all_data (listBus [0x34, 0x12, 0x78, 0x56, 0xBC, 0x9A, 0xF0, 0xDE]) []).1
      = Except.ok [0x1234, 0x5678, 0x9ABC, 0xDEF0] :=
  (read_all_data_le (listBus [0x34, 0x12, 0x78, 0x56, 0xBC, 0x9A, 0xF0, 0xDE]) []
    (fun i => List.getD [0x34, 0x12, 0x78, 0x56, 0xBC, 0x9A, 0xF0, 0xDE] i 0) rfl).2.2

theorem creg1Byte_eq (gain time : Nat) (hg : gain ≤ 11) (ht : time ≤ 14) :
    creg1Byte gain time = 16 * gain + time := by
  unfold creg1Byte
  rw [Nat.shiftLeft_eq]
  have h16 : (2 : Nat) ^ 4 = 16 := by norm_num
  rw [h16]
  have hlt : gain * 16 < 256 := by omega
  rw [Nat.mod_eq_of_lt hlt]
  have htlt : time < 2 ^ 4 := by omega
  calc gain * 16 ||| time = 2 ^ 4 * gain ||| time := by
        rw [Nat.mul_comm gain 16, h16]
    _ = 2 ^ 4 * gain + time := (Nat.mul_add_lt_is_or htlt gain).symm
    _ = 16 * gain + time := by rw [h16]

/-- C4: for every gain code at most 11 and time code at most 14, and any
mode, clock, sync-break and break-time bytes, init issues exactly three
writes in fixed order: the byte 16 * gain + time (that is, gain shifted
left 4 or-ed with time) to CREG1, then the packed mode byte to CREG3,
then the break time to BREAK. -/
theorem init_writes_three (b : Bus) (t : List Tx)
    (mmode cclk sb bt gain time : Nat)
    (hg : gain ≤ 11) (ht : time ≤ 14) (hb : busTotal b) :
    init mmode cclk sb bt gain time b t
      = (Except.ok (), t ++ [Tx.write AS7331_CREG1 (16 * gain + time),
          Tx.write AS7331_CREG3 (creg3Byte mmode sb cclk),
          Tx.write AS7331_BREAK bt]) := by
  have hw := hb.2
  unfold init M.bind i2c_write_cmd
  rw [creg1Byte_eq gain time hg ht]
  simp [hw, List.append_assoc]

theorem init_writes_three_witness :
    init 1 3 0 5 11 14 (constReadBus 0) []
      = (Except.ok (), [] ++ [Tx.write AS7331_CREG1 (16 * 11 + 14),
          Tx.write AS7331_CREG3 (creg3Byte 1 0 3),
          Tx.write AS7331_BREAK 5]) :=
  init_writes_three (constReadBus 0) [] 1 3 0 5 11 14 (by decide) (by decide)
    ⟨fun _ _ _ => ⟨fun _ => 0, rfl⟩, fun _ _ _ => rfl⟩

/-- C7: read_all_data is decode-equivalent to the four individual reads:
for every 8-byte burst, element i of its result is exactly the 16-bit
little-endian value that read_temp_data (i = 0), read_uv_a_data (i = 1),
read_uv_b_data (i = 2), read_uv_c_data (i = 3) compose when served the
corresponding byte pair (bytes 2i and 2i + 1) of that burst. -/
theorem read_all_matches_individual (f : Nat → Nat)
    (b b0 b1 b2 b3 : Bus) (t t0 t1 t2 t3 : List Tx)
    (h : b.respondRead t AS7331_TEMP 8 = Except.ok f)
    (h0 : b0.respondRead t0 AS7331_TEMP 2 = Except.ok (fun j => f (0 + j)))
    (h1 : b1.respondRead t1 AS7331_MRES1 2 = Except.ok (fun j => f (2 + j)))
    (h2 : b2.respondRead t2 AS7331_MRES2 2 = Except.ok (fun j => f (4 + j)))
    (h3 : b3.respondRead t3 AS7331_MRES3 2 = Except.ok (fun j => f (6 + j))) :
    ∃ v : List Nat, (read_all_data b t).1 = Except.ok v ∧ v.length = 4 ∧
      (read_temp_data b0 t0).1 = Except.ok (List.getD v 0 0) ∧
      (read_uv_a_data b1 t1).1 = Except.ok (List.getD v 1 0) ∧
      (read_uv_b_data b2 t2).1 = Except.ok (List.getD v 2 0) ∧
      (read_uv_c_data b3 t3).1 = Except.ok (List.getD v 3 0) := by
  refine ⟨[((f 1 % 256) <<< 8) ||| f 0 % 256, ((f 3 % 256) <<< 8) ||| f 2 % 256,
    ((f 5 % 256) <<< 8) ||| f 4 % 256, ((f 7 % 256) <<< 8) ||| f 6 % 256],
    ?_, rfl, ?_, ?_, ?_, ?_⟩
  · exact congrArg Prod.fst (bind_read_pure_ok b t AS7331_TEMP 8 f
      (fun d => [(d 1 <<< 8) ||| d 0, (d 3 <<< 8) ||| d 2,
        (d 5 <<< 8) ||| d 4, (d 7 <<< 8) ||| d 6]) h)
  · exact congrArg Prod.fst (bind_read_pure_ok b0 t0 AS7331_TEMP 2
      (fun j => f (0 + j)) (fun d => (d 1 <<< 8) ||| d 0) h0)
  · exact congrArg Prod.fst (bind_read_pure_ok b1 t1 AS7331_MRES1 2
      (fun j => f (2 + j)) (fun d => (d 1 <<< 8) ||| d 0) h1)
  · exact congrArg Prod.fst (bind_read_pure_ok b2 t2 AS7331_MRES2 2
      (fun j => f (4 + j)) (fun d => (d 1 <<< 8) ||| d 0) h2)
  · exact congrArg Prod.fst (bind_read_pure_ok b3 t3 AS7331_MRES3 2
      (fun j => f (6 + j)) (fun d => (d 1 <<< 8) ||| d 0) h3)

theorem read_all_matches_individual_witness :
    ∃ v : List Nat,
      (read_all_data (listBus [1, 2, 3, 4, 5, 6, 7, 8]) []).1 = Except.ok v ∧
      v.length = 4 ∧
      (read_temp_data (shiftBus (fun i => List.getD [1, 2, 3, 4, 5, 6, 7, 8] i 0) 0) []).1
        = Except.ok (List.getD v 0 0) ∧
      (read_uv_a_data (shiftBus (fun i => List.getD [1, 2, 3, 4, 5, 6, 7, 8] i 0) 2) []).1
        = Except.ok (List.getD v 1 0) ∧
      (read_uv_b_data (shiftBus (fun i => List.getD [1, 2, 3, 4, 5, 6, 7, 8] i 0) 4) []).1
        = Except.ok (List.getD v 2 0) ∧
      (read_uv_c_data (shiftBus (fun i => List.getD [1, 2, 3, 4, 5, 6, 7, 8] i 0) 6) []).1
        = Except.ok (List.getD v 3 0) :=
  read_all_matches_individual (fun i => List.getD [1, 2, 3, 4, 5, 6, 7, 8] i 0)
    (listBus [1, 2, 3, 4, 5, 6, 7, 8])
    (shiftBus (fun i => List.getD [1, 2, 3, 4, 5, 6, 7, 8] i 0) 0)
    (shiftBus (fun i => List.getD [1, 2, 3, 4, 5, 6, 7, 8] i 0) 2)
    (shiftBus (fun i => List.getD [1, 2, 3, 4, 5, 6, 7, 8] i 0) 4)
    (shiftBus (fun i => List.getD [1, 2, 3, 4, 5, 6, 7, 8] i 0) 6)
    [] [] [] [] [] rfl rfl rfl rfl rfl

/-- C9: a transport failure on an earlier transaction short-circuits the
rest of the operation: if the initial OSR read of one_shot fails, no write
is issued; if the first CREG1 write of init fails, the CREG3 and BREAK
writes are not issued; if the CREG1 write succeeds but the CREG3 write
fails, the BREAK write is not issued. -/
theorem short_circuit (b : Bus) (t : List Tx) (e : EspError)
    (mmode cclk sb bt gain time : Nat) :
    (b.respondRead t AS7331_OSR 1 = Except.error e →
      one_shot b t = (Except.error e, t ++ [Tx.read AS7331_OSR 1])) ∧
    (b.respondWrite t AS7331_CREG1 (creg1Byte gain time) = Except.error e →
      init mmode cclk sb bt gain time b t
        = (Except.error e, t ++ [Tx.write AS7331_CREG1 (creg1Byte gain time)])) ∧
    (b.respondWrite t AS7331_CREG1 (creg1Byte gain time) = Except.ok () →
      b.respondWrite (t ++ [Tx.write AS7331_CREG1 (creg1Byte gain time)])
          AS7331_CREG3 (creg3Byte mmode sb cclk) = Except.error e →
      init mmode cclk sb bt gain time b t
        = (Except.error e, t ++ [Tx.write AS7331_CREG1 (creg1Byte gain time),
            Tx.write AS7331_CREG3 (creg3Byte mmode sb cclk)])) := by
  refine ⟨?_, ?_, ?_⟩
  · intro h
    unfold one_shot M.bind i2c_write_read_cmd
    simp only [h]
  · intro h
    unfold init M.bind i2c_write_cmd
    simp only [h]
  · intro h1 h2
    unfold init M.bind i2c_write_cmd
    simp only [h1, h2]
    simp [List.append_assoc]

theorem short_circuit_witness :
    init 0 0 0 0 0 0 (failSecondWriteBus ⟨9⟩) []
      = (Except.error ⟨9⟩, [] ++ [Tx.write AS7331_CREG1 (creg1Byte 0 0),
          Tx.write AS7331_CREG3 (creg3Byte 0 0 0)]) :=
  (short_circuit (failSecondWriteBus ⟨9⟩) [] ⟨9⟩ 0 0 0 0 0 0).2.2 rfl rfl

theorem allOk_append (b : Bus) (t l1 l2 : List Tx)
    (h1 : allOk b t l1) (h2 : allOk b (t ++ l1) l2) : allOk b t (l1 ++ l2) := by
  induction l1 generalizing t with
  | nil => simpa using h2
  | cons tx rest ih =>
      obtain ⟨htx, hrest⟩ := h1
      rw [List.append_cons] at h2
      exact ⟨htx, ih (t ++ [tx]) hrest h2⟩

theorem faithful_pure {α : Type} (a : α) : faithful (M.pure a) := by
  intro b t
  exact ⟨[], by simp [M.pure], Or.inl ⟨⟨a, rfl⟩, trivial⟩⟩

theorem faithful_read (addr len : Nat) : faithful (i2c_write_read_cmd addr len) := by
  intro b t
  refine ⟨[Tx.read addr len], ?_, ?_⟩
  · unfold i2c_write_read_cmd
    cases b.respondRead t addr len <;> rfl
  · unfold i2c_write_read_cmd
    cases hr : b.respondRead t addr len with
    | ok f => exact Or.inl ⟨⟨fun i => f i % 256, rfl⟩, ⟨f, hr⟩, trivial⟩
    | error e =>
        exact Or.inr ⟨e, [], Tx.read addr len, rfl, rfl, trivial, by simpa using hr⟩

theorem faithful_write (addr cmd : Nat) : faithful (i2c_write_cmd addr cmd) := by
  intro b t
  refine ⟨[Tx.write addr cmd], ?_, ?_⟩
  · unfold i2c_write_cmd
    cases b.respondWrite t addr cmd <;> rfl
  · unfold i2c_write_cmd
    cases hw : b.respondWrite t addr cmd with
    | ok u => exact Or.inl ⟨⟨(), rfl⟩, hw, trivial⟩
    | error e =>
        exact Or.inr ⟨e, [], Tx.write addr cmd, rfl, rfl, trivial, by simpa using hw⟩

theorem faithful_bind {α β : Type} {x : M α} {f : α → M β}
    (hx : faithful x) (hf : ∀ a, faithful (f a)) : faithful (M.bind x f) := by
  intro b t
  obtain ⟨lx, hlx, hcase⟩ := hx b t
  rcases hxx : x b t with ⟨r, t1⟩
  rw [hxx] at hlx hcase
  replace hlx : t1 = t ++ lx := hlx
  subst hlx
  cases r with
  | ok a =>
      have hb : M.bind x f b t = f a b (t ++ lx) := by
        unfold M.bind
        rw [hxx]
      rcases hcase with ⟨⟨a2, ha2⟩, hok⟩ | ⟨e, l0, tx, he, hl, h0, hterr⟩
      · obtain ⟨lf, hlf, hfc⟩ := hf a b (t ++ lx)
        refine ⟨lx ++ lf, by rw [hb, hlf, List.append_assoc], ?_⟩
        rcases hfc with ⟨⟨c, hc⟩, hfok⟩ | ⟨e, l0, tx, he, hl, h0, hterr⟩
        · exact Or.inl ⟨⟨c, by rw [hb]; exact hc⟩, allOk_append b t lx lf hok hfok⟩
        · refine Or.inr ⟨e, lx ++ l0, tx, by rw [hb]; exact he, ?_,
            allOk_append b t lx l0 hok h0, ?_⟩
          · rw [hl, List.append_assoc]
          · rw [← List.append_assoc]
            exact hterr
      · exact absurd he (by simp)
  | error e2 =>
      have hb : M.bind x f b t = (Except.error e2, t ++ lx) := by
        unfold M.bind
        rw [hxx]
      rcases hcase with ⟨⟨a2, ha2⟩, hok⟩ | ⟨e, l0, tx, he, hl, h0, hterr⟩
      · exact absurd ha2 (by simp)
      · replace he : e2 = e := Except.error.inj he
        subst he
        exact ⟨lx, by rw [hb], Or.inr ⟨e2, l0, tx, by rw [hb], hl, h0, hterr⟩⟩

/-- C8: every public operation fails exactly when one of the bus
transactions it actually issues fails, and in that case it returns,
unchanged, the error with which its first failing issued transaction was
answered; a run whose every issued transaction is acknowledged succeeds
(no local recovery, retry, or error translation anywhere). -/
theorem error_propagation (mmode cclk sb bt gain time : Nat) :
    faithful get_chip_id ∧
    faithful (init mmode cclk sb bt gain time) ∧
    faithful one_shot ∧
    faithful get_status ∧
    faithful read_temp_data ∧
    faithful read_uv_a_data ∧
    faithful read_uv_b_data ∧
    faithful read_uv_c_data ∧
    faithful read_all_data ∧
    faithful power_up ∧
    faithful power_down ∧
    faithful reset ∧
    faithful set_configuration_mode ∧
    faithful get_mode ∧
    faithful set_measurement_mode :=
  ⟨faithful_bind (faithful_read _ _) (fun d => faithful_pure (d 0)),
   faithful_bind (faithful_write _ _) (fun _ =>
     faithful_bind (faithful_write _ _) (fun _ => faithful_write _ _)),
   faithful_bind (faithful_read _ _) (fun _ => faithful_write _ _),
   faithful_bind (faithful_read _ _) (fun _ => faithful_pure _),
   faithful_bind (faithful_read _ _) (fun _ => faithful_pure _),
   faithful_bind (faithful_read _ _) (fun _ => faithful_pure _),
   faithful_bind (faithful_read _ _) (fun _ => faithful_pure _),
   faithful_bind (faithful_read _ _) (fun _ => faithful_pure _),
   faithful_bind (faithful_read _ _) (fun _ => faithful_pure _),
   faithful_write _ _,
   faithful_write _ _,
   faithful_write _ _,
   faithful_write _ _,
   faithful_bind (faithful_read _ _) (fun _ => faithful_pure _),
   faithful_write _ _⟩

theorem error_propagation_witness :
    ∃ l, (one_shot (failBus ⟨1⟩) []).2 = [] ++ l ∧
      (((∃ a, (one_shot (failBus ⟨1⟩) []).1 = Except.ok a) ∧
          allOk (failBus ⟨1⟩) [] l) ∨
       (∃ e l0 tx, (one_shot (failBus ⟨1⟩) []).1 = Except.error e ∧
          l = l0 ++ [tx] ∧ allOk (failBus ⟨1⟩) [] l0 ∧
          txErr (failBus ⟨1⟩) ([] ++ l0) tx e)) :=
  (error_propagation 0 0 0 0 0 0).2.2.1 (failBus ⟨1⟩) []

theorem and_mask_shift_le_one (x k m : Nat) (hm : m = 2 ^ k) :
    (x &&& m) >>> k ≤ 1 := by
  subst hm
  rw [and_two_pow_shiftRight]
  exact Bool.toNat_le _

/-- C10: the decoded bitfields are always in range: every flag returned by
get_status is 0 or 1, and get_mode returns a first value at most 7 and
three further values each 0 or 1. -/
theorem decoded_fields_in_range (b : Bus) (t : List Tx) (s m : List Nat)
    (hs : (get_status b t).1 = Except.ok s)
    (hm : (get_mode b t).1 = Except.ok m) :
    (∀ x ∈ s, x = 0 ∨ x = 1) ∧
    List.getD m 0 0 ≤ 7 ∧
    (∀ i, 1 ≤ i → i ≤ 3 → List.getD m i 0 = 0 ∨ List.getD m i 0 = 1) := by
  have hrange : ∀ y k msk, msk = 2 ^ k →
      ((y &&& msk) >>> k = 0 ∨ (y &&& msk) >>> k = 1) := by
    intro y k msk hk
    exact Nat.le_one_iff_eq_zero_or_eq_one.mp (and_mask_shift_le_one y k msk hk)
  constructor
  · unfold get_status M.bind i2c_read_bytes i2c_write_read_cmd at hs
    cases hr : b.respondRead t AS7331_STATUS 2 with
    | error e2 => rw [hr] at hs; simp at hs
    | ok f =>
        rw [hr] at hs
        replace hs : [(f 1 % 256 &&& 0x01) >>> 0, (f 1 % 256 &&& 0x02) >>> 1,
            (f 1 % 256 &&& 0x04) >>> 2, (f 1 % 256 &&& 0x08) >>> 3,
            (f 1 % 256 &&& 0x10) >>> 4, (f 1 % 256 &&& 0x20) >>> 5,
            (f 1 % 256 &&& 0x40) >>> 6, (f 1 % 256 &&& 0x80) >>> 7] = s :=
          Except.ok.inj hs
        subst hs
        intro x hx
        simp only [List.mem_cons, List.not_mem_nil, or_false] at hx
        rcases hx with rfl | rfl | rfl | rfl | rfl | rfl | rfl | rfl
        · exact hrange _ 0 _ (by norm_num)
        · exact hrange _ 1 _ (by norm_num)
        · exact hrange _ 2 _ (by norm_num)
        · exact hrange _ 3 _ (by norm_num)
        · exact hrange _ 4 _ (by norm_num)
        · exact hrange _ 5 _ (by norm_num)
        · exact hrange _ 6 _ (by norm_num)
        · exact hrange _ 7 _ (by norm_num)
  · unfold get_mode M.bind i2c_read_bytes i2c_write_read_cmd at hm
    cases hr : b.respondRead t AS7331_OSR 2 with
    | error e2 => rw [hr] at hm; simp at hm
    | ok f =>
        rw [hr] at hm
        replace hm : [f 0 % 256 &&& 0x07, (f 0 % 256 &&& 0x08) >>> 3,
            (f 0 % 256 &&& 0x40) >>> 6, (f 0 % 256 &&& 0x80) >>> 7] = m :=
          Except.ok.inj hm
        subst hm
        refine ⟨Nat.and_le_right, ?_⟩
        intro i h1 h3
        interval_cases i
        · exact hrange _ 3 _ (by norm_num)
        · exact hrange _ 6 _ (by norm_num)
        · exact hrange _ 7 _ (by norm_num)

theorem decoded_fields_in_range_witness :
    (∀ x ∈ ([1, 0, 0, 0, 1, 1, 0, 1] : List Nat), x = 0 ∨ x = 1) ∧
    List.getD ([5, 0, 0, 0] : List Nat) 0 0 ≤ 7 ∧
    (∀ i, 1 ≤ i → i ≤ 3 → List.getD ([5, 0, 0, 0] : List Nat) i 0 = 0 ∨
      List.getD ([5, 0, 0, 0] : List Nat) i 0 = 1) :=
  decoded_fields_in_range (listBus [0x05, 0xB1]) [] [1, 0, 0, 0, 1, 1, 0, 1]
    [5, 0, 0, 0] rfl rfl

end AS7331
